import Mathlib

/-!
# Verification of the token-presale backend (src/server.js, src/unnamed/part_000)

Shallow embedding of the purchase-ingestion and referral-settlement pipeline.
JavaScript numbers are modelled as rationals (ℚ); MongoDB collections as lists
in insertion order (`findOne` returns the first match, as Mongo does on the
natural scan order used by the code, which creates no indexes beyond the
schema's `unique` flags); each `await`-separated storage call is a separate
atomic step on the shared state.
-/

namespace Presale

/-- Metadata of one mongoose schema field: its name and whether it is declared
with `unique: true`. -/
structure SchemaField where
  name : String
  unique : Bool
deriving DecidableEq, Repr

/-- Fields of `purchaseSchema` (src/server.js lines 31-38), with their `unique`
flags as declared there: no field carries a `unique: true` option. -/
def purchaseSchemaFields : List SchemaField :=
  [⟨"walletAddress", false⟩, ⟨"usdSpent", false⟩, ⟨"tokensReceived", false⟩,
   ⟨"transactionId", false⟩, ⟨"referralCodeUsed", false⟩, ⟨"timestamp", false⟩]

/-- Fields of `userSchema` (src/unnamed/part_000 lines 11-26). -/
def userSchemaFields : List SchemaField :=
  [⟨"walletAddress", true⟩, ⟨"referralCode", true⟩, ⟨"referralEarnings", false⟩]

/-- Whether the Purchase store enforces a unique constraint on
`transactionId`: read off the schema declaration. -/
def transactionIdHasUniqueConstraint : Bool :=
  (purchaseSchemaFields.filter (fun f => f.name = "transactionId")).any (fun f => f.unique)

/-- A User document (src/unnamed/part_000, `userSchema`): wallet address,
optional referral code, accumulated referral earnings. -/
structure User where
  walletAddress : String
  referralCode : Option String
  referralEarnings : ℚ
deriving DecidableEq, Repr

/-- A Purchase document (src/server.js, `purchaseSchema`). `walletAddress` is
Option because the webhook path can store a document whose wallet field is
absent (`tx.signers[0]` on an empty array is `undefined`); the direct path
always sets it. `referralCodeUsed` is null/absent when no code was given. -/
structure Purchase where
  walletAddress : Option String
  usdSpent : ℚ
  tokensReceived : ℚ
  transactionId : String
  referralCodeUsed : Option String
deriving DecidableEq, Repr

/-- The durable state: the Purchase collection and the User collection, in
insertion order. -/
structure DB where
  purchases : List Purchase
  users : List User
deriving DecidableEq, Repr

/-- An HTTP response: status code and the `error`/`message` string of the JSON
body. -/
structure Response where
  status : Nat
  body : String
deriving DecidableEq, Repr

/-- JavaScript truthiness of an optional string field: `undefined` and `""`
are falsy. -/
def strTruthy : Option String → Bool
  | none => false
  | some s => s ≠ ""

/-- JavaScript truthiness of an optional numeric field: `undefined` and `0`
are falsy; every non-zero number (negative included) is truthy. -/
def numTruthy : Option ℚ → Bool
  | none => false
  | some q => q ≠ 0

/-- The body of POST /purchase (src/server.js line 93): all fields optional,
as in a dynamic JSON body. -/
structure PurchaseReq where
  walletAddress : Option String
  usdSpent : Option ℚ
  tokensReceived : Option ℚ
  transactionId : Option String
  referralCode : Option String
deriving DecidableEq, Repr

/-- A transaction as returned by the Solana node: the account-key list of
`txInfo.transaction.message`; index 0 is the fee payer / first signer. -/
structure ChainTx where
  accountKeys : List String
deriving DecidableEq, Repr

/-- Outcome of `solanaConnection.getTransaction` for the queried signature:
the transaction, a null (not found), or a network/RPC failure (the promise
rejects). This is the external input of `validateSignatureOnChain`. -/
inductive ChainResp where
  | found (tx : ChainTx)
  | notFound
  | networkError
deriving DecidableEq, Repr

set_option linter.unusedVariables false in
/-- `validateSignatureOnChain` (src/server.js lines 218-253). The whole body
is wrapped in try/catch returning `false`, so a network error, a missing
transaction, a signer mismatch or a missing presale wallet all yield `false`;
the function never throws. `expectedUsdSpent` is received but never used, as
in the source. -/
def validateSignatureOnChain (presaleWallet : String) (chain : ChainResp)
    (fromWallet : String) (expectedUsdSpent : ℚ) : Bool :=
  match chain with
  | .networkError => false
  | .notFound => false
  | .found tx =>
    match tx.accountKeys.head? with
    | none => false
    | some k0 => k0 = fromWallet && tx.accountKeys.contains presaleWallet

/-- `Purchase.findOne({ transactionId })`: first purchase with that id. -/
def findOnePurchase (db : DB) (txId : String) : Option Purchase :=
  db.purchases.find? (fun p => p.transactionId = txId)

/-- `new Purchase(...).save()`: append the document to the collection. -/
def insertPurchase (db : DB) (p : Purchase) : DB :=
  { db with purchases := db.purchases ++ [p] }

/-- `User.findOne({ referralCode })`: first user with that code. -/
def findOneUserByCode (users : List User) (code : String) : Option User :=
  users.find? (fun u => u.referralCode = some code)

/-- `refUser.referralEarnings += bonus; await refUser.save()` applied to the
document `findOne` returned: the first user with the code gets the bonus
added, everyone else is untouched. -/
def creditFirst (users : List User) (code : String) (bonus : ℚ) : List User :=
  match users with
  | [] => []
  | u :: rest =>
    if u.referralCode = some code then
      { u with referralEarnings := u.referralEarnings + bonus } :: rest
    else
      u :: creditFirst rest code bonus

/-- The read half of the credit's read-modify-write: the earnings snapshot
taken by `User.findOne({ referralCode })`. -/
def readEarnings (db : DB) (code : String) : Option ℚ :=
  (findOneUserByCode db.users code).map (fun u => u.referralEarnings)

/-- The write half: `refUser.save()` persists the whole document, overwriting
`referralEarnings` of the first user with the code (the document `findOne`
returned; `referralCode` is unique per `userSchema`) with the in-memory
value. -/
def saveEarnings (users : List User) (code : String) (v : ℚ) : List User :=
  match users with
  | [] => []
  | u :: rest =>
    if u.referralCode = some code then { u with referralEarnings := v } :: rest
    else u :: saveEarnings rest code v

/-- `saveEarnings` lifted to the whole state. -/
def saveEarningsDB (db : DB) (code : String) (v : ℚ) : DB :=
  { db with users := saveEarnings db.users code v }

/-- POST /purchase (src/server.js lines 92-139), executed without interference
from other requests. In order: truthiness check on the four required fields
(`"Missing data"`), on-chain validation (`"Invalid or fake transaction."` on
`false`; the handler's catch branch `"Unable to validate transaction."` is
unreachable because `validateSignatureOnChain` catches all its errors),
duplicate `findOne` check (`"Duplicate transaction detected"`), insert, then
the optional 5% referral credit. -/
def postPurchase (presaleWallet : String) (chain : ChainResp) (db : DB)
    (req : PurchaseReq) : DB × Response :=
  if ¬(strTruthy req.walletAddress && numTruthy req.usdSpent &&
       numTruthy req.tokensReceived && strTruthy req.transactionId) then
    (db, ⟨400, "Missing data"⟩)
  else
    let walletAddress := req.walletAddress.getD ""
    let usdSpent := req.usdSpent.getD 0
    let tokensReceived := req.tokensReceived.getD 0
    let transactionId := req.transactionId.getD ""
    if validateSignatureOnChain presaleWallet chain walletAddress usdSpent = false then
      (db, ⟨400, "Invalid or fake transaction."⟩)
    else if (findOnePurchase db transactionId).isSome then
      (db, ⟨400, "Duplicate transaction detected"⟩)
    else
      let newPurchase : Purchase :=
        ⟨some walletAddress, usdSpent, tokensReceived, transactionId,
         if strTruthy req.referralCode then req.referralCode else none⟩
      let db1 := insertPurchase db newPurchase
      let db2 :=
        if strTruthy req.referralCode then
          let code := req.referralCode.getD ""
          match findOneUserByCode db1.users code with
          | some _ => { db1 with users := creditFirst db1.users code (0.05 * usdSpent) }
          | none => db1
        else db1
      (db2, ⟨200, "✅ Purchase recorded successfully"⟩)

/-- GET /user/:walletAddress (src/server.js lines 61-85): lazily creates the
user with earnings 0 and the externally supplied random code. Returns the
updated DB (the response body is not needed by the claims). -/
def getUserHandler (db : DB) (walletAddress : String) (randomCode : String) : DB :=
  match db.users.find? (fun u => u.walletAddress = walletAddress) with
  | some _ => db
  | none => { db with users := db.users ++ [⟨walletAddress, some randomCode, 0⟩] }

/-- GET /raised-amount (src/server.js lines 45-56): `$sum` of `usdSpent` over
the Purchase collection; the aggregate returns no group when the collection
is empty and the handler then reports 0, which coincides with the empty sum. -/
def raisedAmount (db : DB) : ℚ :=
  (db.purchases.map (fun p => p.usdSpent)).sum

/-- `inst.parsed.info` of a webhook instruction: destination and the numeric
value of `amount` (after `parseFloat`). -/
structure ParsedInfo where
  destination : String
  amount : ℚ
deriving DecidableEq, Repr

/-- A webhook instruction; `parsed = none` models `inst.parsed` or
`inst.parsed.info` being absent. -/
structure Instruction where
  parsed : Option ParsedInfo
deriving DecidableEq, Repr

/-- A webhook transaction envelope. `signers = none` models an absent
`tx.signers` field, on which `tx.signers[0]` throws a TypeError. -/
structure WebhookTx where
  signature : String
  instructions : List Instruction
  signers : Option (List String)
deriving DecidableEq, Repr

/-- The inner instruction loop of POST /webhook/solana-inbound (src/server.js
lines 179-203). The Bool is `true` when the loop ran to completion, `false`
when a record threw (reading `signers[0]` of an absent `signers`); a throw
carries the DB as already mutated. -/
def processInstructions (presaleWallet : String) (txId : String)
    (signers : Option (List String)) : DB → List Instruction → DB × Bool
  | db, [] => (db, true)
  | db, inst :: rest =>
    match inst.parsed with
    | none => processInstructions presaleWallet txId signers db rest
    | some info =>
      if info.destination = presaleWallet then
        match signers with
        | none => (db, false)
        | some ss =>
          let walletAddress := ss.head?
          let usdSpent := info.amount / 1000000
          let tokensReceived := usdSpent / 0.00851
          if (findOnePurchase db txId).isSome then
            processInstructions presaleWallet txId signers db rest
          else
            processInstructions presaleWallet txId signers
              (insertPurchase db ⟨walletAddress, usdSpent, tokensReceived, txId, none⟩) rest
      else
        processInstructions presaleWallet txId signers db rest

/-- The outer transaction loop of the webhook handler; aborts on the first
throw (the only try/catch wraps the entire loop). -/
def processTxs (presaleWallet : String) : DB → List WebhookTx → DB × Bool
  | db, [] => (db, true)
  | db, tx :: rest =>
    match processInstructions presaleWallet tx.signature tx.signers db tx.instructions with
    | (db', true) => processTxs presaleWallet db' rest
    | (db', false) => (db', false)

/-- POST /webhook/solana-inbound (src/server.js lines 170-210): 200 when the
loop completes, 500 from the batch-level catch when any record throws. -/
def webhookHandler (presaleWallet : String) (db : DB) (txs : List WebhookTx) :
    DB × Response :=
  match processTxs presaleWallet db txs with
  | (db', true) => (db', ⟨200, "Webhook processed"⟩)
  | (db', false) => (db', ⟨500, "Internal Server Error"⟩)

/-- A request to any state-touching endpoint, with its external inputs (chain
response, random code) made explicit; read-only endpoints (raised-amount,
user-purchases, leaderboard) never write and are represented by `readOnly`. -/
inductive Request where
  | purchase (chain : ChainResp) (req : PurchaseReq)
  | webhook (txs : List WebhookTx)
  | userLookup (wallet : String) (randomCode : String)
  | readOnly
deriving Repr

/-- One request handled to completion against the shared state. -/
def step (presaleWallet : String) (db : DB) : Request → DB
  | .purchase chain req => (postPurchase presaleWallet chain db req).1
  | .webhook txs => (webhookHandler presaleWallet db txs).1
  | .userLookup w code => getUserHandler db w code
  | .readOnly => db

/-- The duplicate-check-then-insert section of POST /purchase (src/server.js
lines 112-125) as run by two concurrent requests under the interleaving
check₁, check₂, insert₁, insert₂. `Purchase.findOne` and
`newPurchase.save()` are separate awaited storage calls, so the event loop
may run both `findOne`s before either `save`; each request inserts exactly
when its own `findOne` found nothing. -/
def dedupeInsertRace (db : DB) (p1 p2 : Purchase) : DB :=
  let exists1 := (findOnePurchase db p1.transactionId).isSome
  let exists2 := (findOnePurchase db p2.transactionId).isSome
  let db1 := if exists1 then db else insertPurchase db p1
  if exists2 then db1 else insertPurchase db1 p2

/-- The referral-credit section of POST /purchase (src/server.js lines
128-136) as run by two concurrent requests under the interleaving read₁,
read₂, save₁, save₂: each handler snapshots the referrer's earnings with
`User.findOne`, adds its bonus in memory, and persists the whole document
with `save()`. -/
def creditRace (db : DB) (code : String) (bonus1 bonus2 : ℚ) : DB :=
  match readEarnings db code with
  | none => db
  | some e1 =>
    match readEarnings db code with
    | none => db
    | some e2 => saveEarningsDB (saveEarningsDB db code (e1 + bonus1)) code (e2 + bonus2)

/-! ## Helper lemmas -/

theorem insertPurchase_users (db : DB) (p : Purchase) :
    (insertPurchase db p).users = db.users := rfl

theorem insertPurchase_purchases (db : DB) (p : Purchase) :
    (insertPurchase db p).purchases = db.purchases ++ [p] := rfl

theorem creditFirst_of_not_found (users : List User) (code : String) (b : ℚ)
    (h : ∀ u ∈ users, u.referralCode ≠ some code) :
    creditFirst users code b = users := by
  induction users with
  | nil => rfl
  | cons u rest ih =>
    have hu := h u (List.mem_cons_self u rest)
    simp only [creditFirst, if_neg hu]
    rw [ih (fun v hv => h v (List.mem_cons_of_mem u hv))]

theorem creditFirst_decomp (pre post : List User) (u : User) (code : String) (b : ℚ)
    (hpre : ∀ v ∈ pre, v.referralCode ≠ some code) (hu : u.referralCode = some code) :
    creditFirst (pre ++ u :: post) code b =
      pre ++ ({ u with referralEarnings := u.referralEarnings + b } :: post) := by
  induction pre with
  | nil => simp [creditFirst, hu]
  | cons v rest ih =>
    have hv := hpre v (List.mem_cons_self v rest)
    simp only [List.cons_append, creditFirst, if_neg hv]
    congr 1
    exact ih (fun x hx => hpre x (List.mem_cons_of_mem v hx))

theorem creditFirst_length (users : List User) (code : String) (b : ℚ) :
    (creditFirst users code b).length = users.length := by
  induction users with
  | nil => rfl
  | cons u rest ih =>
    simp only [creditFirst]
    split
    · simp
    · simp [ih]

theorem creditFirst_getElem (users : List User) (code : String) (b : ℚ)
    (i : Nat) (h : i < users.length) (h' : i < (creditFirst users code b).length) :
    (creditFirst users code b)[i].referralEarnings = users[i].referralEarnings ∨
    (creditFirst users code b)[i].referralEarnings = users[i].referralEarnings + b := by
  induction users generalizing i with
  | nil => exact absurd h (Nat.not_lt_zero i)
  | cons u rest ih =>
    by_cases hc : u.referralCode = some code
    · cases i with
      | zero => right; simp [creditFirst, hc]
      | succ j => left; simp [creditFirst, hc]
    · cases i with
      | zero => left; simp [creditFirst, hc]
      | succ j =>
        have h2 : j < rest.length := Nat.lt_of_succ_lt_succ h
        have h2' : j < (creditFirst rest code b).length := by
          rw [creditFirst_length]; exact h2
        have := ih j h2 h2'
        simpa [creditFirst, hc] using this

theorem creditFirst_nonneg (users : List User) (code : String) (b : ℚ)
    (hb : 0 ≤ b) (h : ∀ u ∈ users, 0 ≤ u.referralEarnings) :
    ∀ u ∈ creditFirst users code b, 0 ≤ u.referralEarnings := by
  induction users with
  | nil => intro u hu; exact absurd hu (List.not_mem_nil u)
  | cons v rest ih =>
    intro u hu
    simp only [creditFirst] at hu
    split at hu
    · rcases List.mem_cons.mp hu with h1 | h2
      · subst h1
        have := h v (List.mem_cons_self v rest)
        have : (0 : ℚ) ≤ v.referralEarnings + b := add_nonneg this hb
        simpa using this
      · exact h u (List.mem_cons_of_mem v h2)
    · rcases List.mem_cons.mp hu with h1 | h2
      · subst h1; exact h u (List.mem_cons_self u rest)
      · exact ih (fun x hx => h x (List.mem_cons_of_mem v hx)) u h2

theorem postPurchase_missing (presaleWallet : String) (chain : ChainResp) (db : DB)
    (req : PurchaseReq)
    (h : (strTruthy req.walletAddress && numTruthy req.usdSpent &&
          numTruthy req.tokensReceived && strTruthy req.transactionId) = false) :
    postPurchase presaleWallet chain db req = (db, ⟨400, "Missing data"⟩) := by
  unfold postPurchase
  rw [if_pos]
  simp [h]

theorem postPurchase_invalid (presaleWallet : String) (chain : ChainResp) (db : DB)
    (req : PurchaseReq) (w tid : String) (A T : ℚ)
    (hw : req.walletAddress = some w) (hw0 : w ≠ "")
    (hA : req.usdSpent = some A) (hA0 : A ≠ 0)
    (hT : req.tokensReceived = some T) (hT0 : T ≠ 0)
    (ht : req.transactionId = some tid) (ht0 : tid ≠ "")
    (hv : validateSignatureOnChain presaleWallet chain w A = false) :
    postPurchase presaleWallet chain db req =
      (db, ⟨400, "Invalid or fake transaction."⟩) := by
  unfold postPurchase
  rw [if_neg, if_pos]
  · rw [hw, hA]; simpa using hv
  · rw [hw, hA, hT, ht]
    simp [strTruthy, numTruthy, hw0, hA0, hT0, ht0]

theorem postPurchase_duplicate (presaleWallet : String) (chain : ChainResp) (db : DB)
    (req : PurchaseReq) (w tid : String) (A T : ℚ)
    (hw : req.walletAddress = some w) (hw0 : w ≠ "")
    (hA : req.usdSpent = some A) (hA0 : A ≠ 0)
    (hT : req.tokensReceived = some T) (hT0 : T ≠ 0)
    (ht : req.transactionId = some tid) (ht0 : tid ≠ "")
    (hv : validateSignatureOnChain presaleWallet chain w A = true)
    (hdup : (findOnePurchase db tid).isSome) :
    postPurchase presaleWallet chain db req =
      (db, ⟨400, "Duplicate transaction detected"⟩) := by
  unfold postPurchase
  rw [if_neg, if_neg, if_pos]
  · rw [ht]; simpa using hdup
  · rw [hw, hA]; simp [hv]
  · rw [hw, hA, hT, ht]
    simp [strTruthy, numTruthy, hw0, hA0, hT0, ht0]

theorem postPurchase_recorded (presaleWallet : String) (chain : ChainResp) (db : DB)
    (req : PurchaseReq) (w tid : String) (A T : ℚ)
    (hw : req.walletAddress = some w) (hw0 : w ≠ "")
    (hA : req.usdSpent = some A) (hA0 : A ≠ 0)
    (hT : req.tokensReceived = some T) (hT0 : T ≠ 0)
    (ht : req.transactionId = some tid) (ht0 : tid ≠ "")
    (hv : validateSignatureOnChain presaleWallet chain w A = true)
    (hfresh : findOnePurchase db tid = none) :
    postPurchase presaleWallet chain db req =
      ({ purchases := db.purchases ++
           [⟨some w, A, T, tid, if strTruthy req.referralCode then req.referralCode else none⟩],
         users :=
           if strTruthy req.referralCode ∧
              (findOneUserByCode db.users (req.referralCode.getD "")).isSome then
             creditFirst db.users (req.referralCode.getD "") (0.05 * A)
           else db.users },
       ⟨200, "✅ Purchase recorded successfully"⟩) := by
  unfold postPurchase
  rw [if_neg, if_neg, if_neg]
  · simp only [hw, hA, hT, ht, Option.getD_some]
    by_cases hrc : strTruthy req.referralCode = true
    · simp only [hrc, if_true]
      rcases hopt : findOneUserByCode db.users (req.referralCode.getD "") with _ | u
      · simp [insertPurchase, hopt, hrc]
      · simp [insertPurchase, hopt, hrc]
    · simp only [Bool.not_eq_true] at hrc
      simp [hrc, insertPurchase]
  · rw [ht]; simp [hfresh]
  · rw [hw, hA]; simp [hv]
  · rw [hw, hA, hT, ht]
    simp [strTruthy, numTruthy, hw0, hA0, hT0, ht0]

theorem processInstructions_users (presaleWallet txId : String)
    (signers : Option (List String)) (db : DB) (insts : List Instruction) :
    (processInstructions presaleWallet txId signers db insts).1.users = db.users := by
  induction insts generalizing db with
  | nil => rfl
  | cons inst rest ih =>
    simp only [processInstructions]
    rcases inst.parsed with _ | info
    · exact ih db
    · simp only
      split
      · rcases signers with _ | ss
        · rfl
        · simp only
          split
          · exact ih db
          · rw [ih]; rfl
      · exact ih db

theorem processTxs_users (presaleWallet : String) (db : DB) (txs : List WebhookTx) :
    (processTxs presaleWallet db txs).1.users = db.users := by
  induction txs generalizing db with
  | nil => rfl
  | cons tx rest ih =>
    simp only [processTxs]
    rcases hpi : processInstructions presaleWallet tx.signature tx.signers db tx.instructions
      with ⟨db', ok⟩
    have hu : db'.users = db.users := by
      have := processInstructions_users presaleWallet tx.signature tx.signers db tx.instructions
      rwa [hpi] at this
    cases ok
    · exact hu
    · rw [ih db']; exact hu

theorem webhookHandler_users (presaleWallet : String) (db : DB) (txs : List WebhookTx) :
    (webhookHandler presaleWallet db txs).1.users = db.users := by
  unfold webhookHandler
  rcases hpt : processTxs presaleWallet db txs with ⟨db', ok⟩
  have hu : db'.users = db.users := by
    have := processTxs_users presaleWallet db txs
    rwa [hpt] at this
  cases ok <;> exact hu

/-- Shape of every purchase the webhook path can add: no referral code, and
token quantity derived from the stored amount at the fixed 0.00851 rate. -/
def webhookShaped (p : Purchase) : Prop :=
  p.referralCodeUsed = none ∧ p.tokensReceived = p.usdSpent / 0.00851

theorem processInstructions_purchases (presaleWallet txId : String)
    (signers : Option (List String)) (db : DB) (insts : List Instruction) :
    ∀ p ∈ (processInstructions presaleWallet txId signers db insts).1.purchases,
      p ∈ db.purchases ∨ webhookShaped p := by
  induction insts generalizing db with
  | nil => intro p hp; exact Or.inl hp
  | cons inst rest ih =>
    intro p hp
    simp only [processInstructions] at hp
    rcases hparsed : inst.parsed with _ | info
    · simp only [hparsed] at hp
      exact ih db p hp
    · simp only [hparsed] at hp
      split at hp
      · rcases hsig : signers with _ | ss
        · simp only [hsig] at hp
          exact Or.inl hp
        · simp only [hsig] at hp
          subst hsig
          split at hp
          · exact ih db p hp
          · rcases ih _ p hp with hmem | hgood
            · simp only [insertPurchase, List.mem_append, List.mem_singleton] at hmem
              rcases hmem with h1 | h2
              · exact Or.inl h1
              · subst h2
                exact Or.inr ⟨rfl, rfl⟩
            · exact Or.inr hgood
      · exact ih db p hp

theorem processTxs_purchases (presaleWallet : String) (db : DB) (txs : List WebhookTx) :
    ∀ p ∈ (processTxs presaleWallet db txs).1.purchases,
      p ∈ db.purchases ∨ webhookShaped p := by
  induction txs generalizing db with
  | nil => intro p hp; exact Or.inl hp
  | cons tx rest ih =>
    intro p hp
    simp only [processTxs] at hp
    rcases hpi : processInstructions presaleWallet tx.signature tx.signers db tx.instructions
      with ⟨db', ok⟩
    rw [hpi] at hp
    have hstep := processInstructions_purchases presaleWallet tx.signature tx.signers db
      tx.instructions
    rw [hpi] at hstep
    cases ok
    · simp only at hp
      exact hstep p hp
    · simp only at hp
      rcases ih db' p hp with hmem | hgood
      · exact hstep p hmem
      · exact Or.inr hgood

theorem webhookHandler_purchases (presaleWallet : String) (db : DB) (txs : List WebhookTx) :
    ∀ p ∈ (webhookHandler presaleWallet db txs).1.purchases,
      p ∈ db.purchases ∨ webhookShaped p := by
  intro p hp
  unfold webhookHandler at hp
  rcases hpt : processTxs presaleWallet db txs with ⟨db', ok⟩
  rw [hpt] at hp
  have hstep := processTxs_purchases presaleWallet db txs
  rw [hpt] at hstep
  cases ok
  · exact hstep p hp
  · exact hstep p hp

/-- A webhook transaction none of whose parsed instructions targets the
presale wallet. -/
def noMatchingDest (presaleWallet : String) (tx : WebhookTx) : Prop :=
  ∀ inst ∈ tx.instructions, ∀ info, inst.parsed = some info →
    info.destination ≠ presaleWallet

theorem processInstructions_filtered (presaleWallet txId : String)
    (signers : Option (List String)) (db : DB) (insts : List Instruction)
    (h : ∀ inst ∈ insts, ∀ info, inst.parsed = some info →
      info.destination ≠ presaleWallet) :
    processInstructions presaleWallet txId signers db insts = (db, true) := by
  induction insts with
  | nil => rfl
  | cons inst rest ih =>
    simp only [processInstructions]
    rcases hparsed : inst.parsed with _ | info
    · exact ih (fun i hi => h i (List.mem_cons_of_mem inst hi))
    · have hne := h inst (List.mem_cons_self inst rest) info hparsed
      simp only [if_neg hne]
      exact ih (fun i hi => h i (List.mem_cons_of_mem inst hi))

theorem processTxs_filtered (presaleWallet : String) (db : DB) (txs : List WebhookTx)
    (h : ∀ tx ∈ txs, noMatchingDest presaleWallet tx) :
    processTxs presaleWallet db txs = (db, true) := by
  induction txs with
  | nil => rfl
  | cons tx rest ih =>
    simp only [processTxs]
    rw [processInstructions_filtered presaleWallet tx.signature tx.signers db tx.instructions
      (h tx (List.mem_cons_self tx rest))]
    exact ih (fun t ht => h t (List.mem_cons_of_mem tx ht))

theorem processTxs_abort (presaleWallet : String) (db : DB) (sig : String) (amt : ℚ)
    (rest : List WebhookTx) :
    processTxs presaleWallet db
      (⟨sig, [⟨some ⟨presaleWallet, amt⟩⟩], none⟩ :: rest) = (db, false) := by
  simp [processTxs, processInstructions]

theorem getUserHandler_cases (db : DB) (w code : String) :
    getUserHandler db w code = db ∨
    getUserHandler db w code = { db with users := db.users ++ [⟨w, some code, 0⟩] } := by
  unfold getUserHandler
  rcases hf : db.users.find? (fun u => u.walletAddress = w) with _ | u
  · right; rw [hf]
  · left; rw [hf]

theorem foldl_insertPurchase_purchases (init : DB) (ps : List Purchase) :
    (ps.foldl insertPurchase init).purchases = init.purchases ++ ps := by
  induction ps generalizing init with
  | nil => simp
  | cons p rest ih =>
    simp only [List.foldl_cons, ih, insertPurchase]
    simp

/-- The sequential referral credit is literally a read of the referrer's
earnings followed by a whole-document save of the incremented value: the
handler's `creditFirst` step coincides with `readEarnings` + `saveEarnings`. -/
theorem creditFirst_eq_read_save (users : List User) (code : String) (b e : ℚ)
    (h : (users.find? (fun u => u.referralCode = some code)).map
      (fun u => u.referralEarnings) = some e) :
    creditFirst users code b = saveEarnings users code (e + b) := by
  induction users with
  | nil => simp at h
  | cons u rest ih =>
    by_cases hc : u.referralCode = some code
    · rw [List.find?_cons_of_pos _ (by simp [hc])] at h
      have he : u.referralEarnings = e := by simpa using h
      simp [creditFirst, saveEarnings, hc, he]
    · rw [List.find?_cons_of_neg _ (by simp [hc])] at h
      simp only [creditFirst, saveEarnings, if_neg hc]
      rw [ih h]

/-- Every account present before is still present at the same position, with
earnings not decreased (new accounts may be appended after it). -/
def usersMono (xs ys : List User) : Prop :=
  xs.length ≤ ys.length ∧
  ∀ i, ∀ _ : i < xs.length, ∀ _ : i < ys.length,
    xs[i].referralEarnings ≤ ys[i].referralEarnings

/-- Every stored account has non-negative earnings. -/
def allEarningsNonneg (db : DB) : Prop :=
  ∀ u ∈ db.users, 0 ≤ u.referralEarnings

/-- A request whose credited amount, if any, is non-negative. -/
def requestAmountNonneg : Request → Prop
  | .purchase _ req => 0 ≤ req.usdSpent.getD 0
  | _ => True

theorem usersMono_refl (xs : List User) : usersMono xs xs :=
  ⟨le_refl _, fun _ _ _ => le_refl _⟩

theorem usersMono_trans (xs ys zs : List User)
    (h1 : usersMono xs ys) (h2 : usersMono ys zs) : usersMono xs zs := by
  refine ⟨le_trans h1.1 h2.1, fun i hi hk => ?_⟩
  have hj : i < ys.length := lt_of_lt_of_le hi h1.1
  exact le_trans (h1.2 i hi hj) (h2.2 i hj hk)

theorem usersMono_creditFirst (xs : List User) (code : String) (b : ℚ) (hb : 0 ≤ b) :
    usersMono xs (creditFirst xs code b) := by
  refine ⟨le_of_eq (creditFirst_length xs code b).symm, fun i hi hk => ?_⟩
  rcases creditFirst_getElem xs code b i hi hk with h | h
  · exact le_of_eq h.symm
  · rw [h]; linarith

theorem usersMono_append (xs ext : List User) : usersMono xs (xs ++ ext) := by
  refine ⟨by simp, fun i hi hk => ?_⟩
  rw [List.getElem_append_left hi]

theorem postPurchase_users_cases (presaleWallet : String) (chain : ChainResp)
    (db : DB) (req : PurchaseReq) :
    (postPurchase presaleWallet chain db req).1.users = db.users ∨
    ∃ code, (postPurchase presaleWallet chain db req).1.users =
      creditFirst db.users code (0.05 * req.usdSpent.getD 0) := by
  simp only [postPurchase]
  split
  · left; rfl
  · split
    · left; rfl
    · split
      · left; rfl
      · split
        · split
          · right; exact ⟨req.referralCode.getD "", rfl⟩
          · left; rfl
        · left; rfl

theorem step_usersMono (presaleWallet : String) (db : DB) (r : Request)
    (hr : requestAmountNonneg r) :
    usersMono db.users (step presaleWallet db r).users := by
  cases r with
  | purchase chain req =>
    rcases postPurchase_users_cases presaleWallet chain db req with h | ⟨code, h⟩
    · simp only [step, h]; exact usersMono_refl _
    · simp only [step, h]
      exact usersMono_creditFirst _ _ _ (mul_nonneg (by norm_num) hr)
  | webhook txs =>
    simp only [step, webhookHandler_users]
    exact usersMono_refl _
  | userLookup w code =>
    rcases getUserHandler_cases db w code with h | h
    · simp only [step, h]; exact usersMono_refl _
    · simp only [step, h]; exact usersMono_append _ _
  | readOnly => exact usersMono_refl _

theorem step_nonneg (presaleWallet : String) (db : DB) (r : Request)
    (hr : requestAmountNonneg r) (h : allEarningsNonneg db) :
    allEarningsNonneg (step presaleWallet db r) := by
  cases r with
  | purchase chain req =>
    rcases postPurchase_users_cases presaleWallet chain db req with heq | ⟨code, heq⟩
    · intro u hu; simp only [step, heq] at hu; exact h u hu
    · intro u hu
      simp only [step, heq] at hu
      exact creditFirst_nonneg db.users code _ (mul_nonneg (by norm_num) hr) h u hu
  | webhook txs =>
    intro u hu
    simp only [step] at hu
    rw [webhookHandler_users] at hu
    exact h u hu
  | userLookup w code =>
    rcases getUserHandler_cases db w code with heq | heq
    · intro u hu; simp only [step, heq] at hu; exact h u hu
    · intro u hu
      simp only [step, heq] at hu
      rcases List.mem_append.mp hu with h1 | h2
      · exact h u h1
      · simp only [List.mem_singleton] at h2
        subst h2
        exact le_refl 0
  | readOnly => exact h

theorem foldl_step_mono_nonneg (presaleWallet : String) (rs : List Request) (db : DB)
    (h0 : allEarningsNonneg db) (hrs : ∀ r ∈ rs, requestAmountNonneg r) :
    allEarningsNonneg (rs.foldl (step presaleWallet) db) ∧
    usersMono db.users (rs.foldl (step presaleWallet) db).users := by
  induction rs generalizing db with
  | nil => exact ⟨h0, usersMono_refl _⟩
  | cons r rest ih =>
    have hr := hrs r (List.mem_cons_self r rest)
    have hrest : ∀ x ∈ rest, requestAmountNonneg x :=
      fun x hx => hrs x (List.mem_cons_of_mem r hx)
    have h1 := step_nonneg presaleWallet db r hr h0
    rcases ih (step presaleWallet db r) h1 hrest with ⟨ha, hb⟩
    exact ⟨ha, usersMono_trans _ _ _ (step_usersMono presaleWallet db r hr) hb⟩

/-! ## Claims -/

/-- Claim C1, counterexample. The duplicate check of POST /purchase is
`Purchase.findOne` followed by `save()` — two separate awaited storage calls —
and `purchaseSchema` declares no unique index on `transactionId`, so under
the interleaving check₁, check₂, insert₁, insert₂ two concurrent submissions
of the same `transactionId` both pass the check and two Purchase records are
stored, refuting both the at-most-one-record property and the claimed
unique-constraint-backed atomic insert-if-absent. -/
theorem C1_counterexample :
    ((dedupeInsertRace ⟨[], []⟩ ⟨some "W1", 100, 50, "tx1", none⟩
        ⟨some "W2", 100, 50, "tx1", none⟩).purchases.filter
      (fun p => p.transactionId = "tx1")).length = 2 ∧
    transactionIdHasUniqueConstraint = false := by
  constructor
  · rfl
  · rfl

/-- Claim C1, amended: sequentially the dedupe works — a submission whose
`transactionId` is already stored observes Duplicate with the ledger
unchanged, and a fresh one is Recorded with exactly one new record — but the
check is a separate `findOne` before the insert, with no unique constraint,
so it is not atomic under concurrency (see the counterexample). -/
theorem C1_sequential_dedupe (presaleWallet : String) (chain : ChainResp) (db : DB)
    (req : PurchaseReq) (w tid : String) (A T : ℚ)
    (hw : req.walletAddress = some w) (hw0 : w ≠ "")
    (hA : req.usdSpent = some A) (hA0 : A ≠ 0)
    (hT : req.tokensReceived = some T) (hT0 : T ≠ 0)
    (ht : req.transactionId = some tid) (ht0 : tid ≠ "")
    (hv : validateSignatureOnChain presaleWallet chain w A = true) :
    ((findOnePurchase db tid).isSome →
      postPurchase presaleWallet chain db req =
        (db, ⟨400, "Duplicate transaction detected"⟩)) ∧
    (findOnePurchase db tid = none →
      (postPurchase presaleWallet chain db req).2 =
        ⟨200, "✅ Purchase recorded successfully"⟩ ∧
      (postPurchase presaleWallet chain db req).1.purchases =
        db.purchases ++ [⟨some w, A, T, tid,
          if strTruthy req.referralCode then req.referralCode else none⟩]) := by
  constructor
  · intro hdup
    exact postPurchase_duplicate presaleWallet chain db req w tid A T
      hw hw0 hA hA0 hT hT0 ht ht0 hv hdup
  · intro hfresh
    rw [postPurchase_recorded presaleWallet chain db req w tid A T
      hw hw0 hA hA0 hT hT0 ht ht0 hv hfresh]
    exact ⟨rfl, rfl⟩

/-- Claim C1, witness: a stored "tx1" makes a second submission observe
Duplicate with the ledger unchanged; on an empty ledger the same submission
is Recorded with exactly one record. -/
theorem C1_sequential_dedupe_witness :
    postPurchase "P" (.found ⟨["W", "P"]⟩)
      ⟨[⟨some "W", 100, 50, "tx1", none⟩], []⟩
      ⟨some "W", some 100, some 50, some "tx1", none⟩ =
      (⟨[⟨some "W", 100, 50, "tx1", none⟩], []⟩,
       ⟨400, "Duplicate transaction detected"⟩) ∧
    (postPurchase "P" (.found ⟨["W", "P"]⟩) ⟨[], []⟩
      ⟨some "W", some 100, some 50, some "tx1", none⟩).1.purchases =
      [⟨some "W", 100, 50, "tx1", none⟩] := by
  constructor
  · exact (C1_sequential_dedupe "P" (.found ⟨["W", "P"]⟩)
      ⟨[⟨some "W", 100, 50, "tx1", none⟩], []⟩
      ⟨some "W", some 100, some 50, some "tx1", none⟩ "W" "tx1" 100 50
      rfl (by decide) rfl (by norm_num) rfl (by norm_num) rfl (by decide) rfl).1 rfl
  · have h := (C1_sequential_dedupe "P" (.found ⟨["W", "P"]⟩) ⟨[], []⟩
      ⟨some "W", some 100, some 50, some "tx1", none⟩ "W" "tx1" 100 50
      rfl (by decide) rfl (by norm_num) rfl (by norm_num) rfl (by decide) rfl).2 rfl
    rw [h.2]
    rfl

/-- Claim C3, counterexample. The spec says the 400 message distinguishes an
invalid transaction from an inability to validate, but
`validateSignatureOnChain` catches node failures and returns `false`, so an
unreachable/failed node (the spec's Indeterminate) produces exactly the same
"Invalid or fake transaction." response as a transaction the node does not
know; the handler's "Unable to validate transaction." branch cannot fire. -/
theorem C3_counterexample :
    postPurchase "P" .networkError ⟨[], []⟩
      ⟨some "W", some 100, some 50, some "tx1", none⟩ =
      (⟨[], []⟩, ⟨400, "Invalid or fake transaction."⟩) ∧
    postPurchase "P" .notFound ⟨[], []⟩
      ⟨some "W", some 100, some 50, some "tx1", none⟩ =
      (⟨[], []⟩, ⟨400, "Invalid or fake transaction."⟩) := by
  constructor
  · rfl
  · rfl

/-- Claim C3, amended: whenever the verifier does not confirm (which covers a
rejected transaction, an unknown transaction and a node failure alike, all of
which surface as `false`), the request is answered 400 with no Purchase
stored and no account changed, and is never treated as success — but the
message is the single "Invalid or fake transaction." string, with no
distinction between invalid and unable-to-validate. -/
theorem C3_verification_gating (presaleWallet : String) (chain : ChainResp) (db : DB)
    (req : PurchaseReq) (w tid : String) (A T : ℚ)
    (hw : req.walletAddress = some w) (hw0 : w ≠ "")
    (hA : req.usdSpent = some A) (hA0 : A ≠ 0)
    (hT : req.tokensReceived = some T) (hT0 : T ≠ 0)
    (ht : req.transactionId = some tid) (ht0 : tid ≠ "")
    (hv : validateSignatureOnChain presaleWallet chain w A = false) :
    postPurchase presaleWallet chain db req =
      (db, ⟨400, "Invalid or fake transaction."⟩) ∧
    validateSignatureOnChain presaleWallet .networkError w A = false ∧
    validateSignatureOnChain presaleWallet .notFound w A = false :=
  ⟨postPurchase_invalid presaleWallet chain db req w tid A T
    hw hw0 hA hA0 hT hT0 ht ht0 hv, rfl, rfl⟩

/-- Claim C3, witness: a network failure leaves the state untouched and
yields the 400 rejection. -/
theorem C3_verification_gating_witness :
    postPurchase "P" .networkError ⟨[⟨some "V", 7, 9, "tx0", none⟩], []⟩
      ⟨some "W", some 100, some 50, some "tx9", none⟩ =
      (⟨[⟨some "V", 7, 9, "tx0", none⟩], []⟩,
       ⟨400, "Invalid or fake transaction."⟩) :=
  (C3_verification_gating "P" .networkError ⟨[⟨some "V", 7, 9, "tx0", none⟩], []⟩
    ⟨some "W", some 100, some 50, some "tx9", none⟩ "W" "tx9" 100 50
    rfl (by decide) rfl (by norm_num) rfl (by norm_num) rfl (by decide) rfl).1

/-- Claim C4, counterexample. The validation is the JS truthiness check
`!walletAddress || !usdSpent || !tokensReceived || !transactionId`; a
negative number is truthy, so a purchase with `usdSpent = -5` is not rejected
as missing-or-invalid data — it proceeds through verification and is stored
with a 200 response, refuting "every input with a negative amountSpent ... is
rejected at this step". -/
theorem C4_counterexample :
    (postPurchase "P" (.found ⟨["W", "P"]⟩) ⟨[], []⟩
      ⟨some "W", some (-5), some 50, some "tx1", none⟩).2 =
      ⟨200, "✅ Purchase recorded successfully"⟩ ∧
    (postPurchase "P" (.found ⟨["W", "P"]⟩) ⟨[], []⟩
      ⟨some "W", some (-5), some 50, some "tx1", none⟩).1.purchases =
      [⟨some "W", -5, 50, "tx1", none⟩] := by
  constructor
  · rfl
  · rfl

/-- Claim C4, amended: if any of the four required fields is absent or
JS-falsy (an absent field, a zero amount, an empty string), the call returns
400 "Missing data" with the state untouched, before any verification,
storage or credit; zero amounts are rejected here, but negative amounts pass
this step (see the counterexample). -/
theorem C4_validation (presaleWallet : String) (chain : ChainResp) (db : DB)
    (req : PurchaseReq)
    (h : (strTruthy req.walletAddress && numTruthy req.usdSpent &&
          numTruthy req.tokensReceived && strTruthy req.transactionId) = false) :
    postPurchase presaleWallet chain db req = (db, ⟨400, "Missing data"⟩) :=
  postPurchase_missing presaleWallet chain db req h

/-- Claim C4, witness: an absent wallet and a zero amount are both rejected
as missing data regardless of the chain verdict. -/
theorem C4_validation_witness :
    postPurchase "P" (.found ⟨["W", "P"]⟩) ⟨[], []⟩
      ⟨none, some 100, some 50, some "tx1", none⟩ =
      ((⟨[], []⟩ : DB), ⟨400, "Missing data"⟩) ∧
    postPurchase "P" (.found ⟨["W", "P"]⟩) ⟨[], []⟩
      ⟨some "W", some 0, some 50, some "tx1", none⟩ =
      ((⟨[], []⟩ : DB), ⟨400, "Missing data"⟩) :=
  ⟨C4_validation "P" (.found ⟨["W", "P"]⟩) ⟨[], []⟩
      ⟨none, some 100, some 50, some "tx1", none⟩ rfl,
   C4_validation "P" (.found ⟨["W", "P"]⟩) ⟨[], []⟩
      ⟨some "W", some 0, some 50, some "tx1", none⟩ (by decide)⟩

/-- Claim C7, counterexample. `validateSignatureOnChain` never reads its
`expectedUsdSpent` argument: with a transaction whose first signer is the
claimed wallet and whose account keys include the presale wallet it returns
`true` even for a claimed amount of −5, refuting the required
`claimedAmount > 0` bound-check. -/
theorem C7_counterexample :
    validateSignatureOnChain "P" (.found ⟨["W", "P"]⟩) "W" (-5) = true := rfl

/-- Claim C7, amended: the verifier checks only that the transaction exists,
that the claimed wallet is the first account key, and that the presale wallet
appears among the account keys; its verdict is entirely independent of the
claimed amount, so no `claimedAmount > 0` bound-check is performed. -/
theorem C7_amount_ignored (presaleWallet : String) (chain : ChainResp)
    (w : String) (a1 a2 : ℚ) :
    validateSignatureOnChain presaleWallet chain w a1 =
      validateSignatureOnChain presaleWallet chain w a2 ∧
    ∀ tx : ChainTx, validateSignatureOnChain presaleWallet (.found tx) w a1 =
      (tx.accountKeys.head?.elim false (fun k0 =>
        k0 = w && tx.accountKeys.contains presaleWallet)) := by
  constructor
  · cases chain <;> rfl
  · intro tx
    rcases h : tx.accountKeys.head? with _ | k0
    · simp [validateSignatureOnChain, h]
    · simp [validateSignatureOnChain, h]

/-- Claim C2: a successful purchase with a resolvable referral code is
answered Recorded, appends exactly the submitted Purchase, and increases the
referrer's earnings by exactly 0.05 × amount while touching no other
account; with an unresolvable code every account is unchanged and the call
is still Recorded with the Purchase stored. -/
theorem C2_referral_credit (presaleWallet : String) (chain : ChainResp) (db : DB)
    (req : PurchaseReq) (w tid c : String) (A T : ℚ)
    (hw : req.walletAddress = some w) (hw0 : w ≠ "")
    (hA : req.usdSpent = some A) (hA0 : A ≠ 0)
    (hT : req.tokensReceived = some T) (hT0 : T ≠ 0)
    (ht : req.transactionId = some tid) (ht0 : tid ≠ "")
    (hc : req.referralCode = some c) (hc0 : c ≠ "")
    (hv : validateSignatureOnChain presaleWallet chain w A = true)
    (hfresh : findOnePurchase db tid = none) :
    (postPurchase presaleWallet chain db req).2 =
      ⟨200, "✅ Purchase recorded successfully"⟩ ∧
    (postPurchase presaleWallet chain db req).1.purchases =
      db.purchases ++ [⟨some w, A, T, tid, some c⟩] ∧
    (∀ pre (u : User) post, db.users = pre ++ u :: post →
      (∀ v ∈ pre, v.referralCode ≠ some c) → u.referralCode = some c →
      (postPurchase presaleWallet chain db req).1.users =
        pre ++ ({ u with referralEarnings := u.referralEarnings + 0.05 * A } :: post)) ∧
    ((∀ u ∈ db.users, u.referralCode ≠ some c) →
      (postPurchase presaleWallet chain db req).1.users = db.users) := by
  have hrc : strTruthy req.referralCode = true := by
    rw [hc]; simp [strTruthy, hc0]
  have hgd : req.referralCode.getD "" = c := by rw [hc]; rfl
  rw [postPurchase_recorded presaleWallet chain db req w tid A T
    hw hw0 hA hA0 hT hT0 ht ht0 hv hfresh]
  refine ⟨rfl, ?_, ?_, ?_⟩
  · simp [hc, strTruthy, hc0]
  · intro pre u post hdecomp hpre hu
    have hfound : findOneUserByCode db.users c = some u := by
      rw [hdecomp]
      unfold findOneUserByCode
      rw [List.find?_append]
      have h1 : List.find? (fun x => x.referralCode = some c) pre = none :=
        List.find?_eq_none.mpr (by intro x hx; simpa using hpre x hx)
      rw [h1, List.find?_cons_of_pos _ (by simp [hu])]
      rfl
    simp only [hgd]
    rw [if_pos ⟨hrc, by rw [hfound]; rfl⟩]
    rw [hdecomp]
    exact creditFirst_decomp pre post u c (0.05 * A) hpre hu
  · intro hnone
    have hnf : findOneUserByCode db.users c = none := by
      unfold findOneUserByCode
      exact List.find?_eq_none.mpr (by intro x hx; simpa using hnone x hx)
    simp only [hgd]
    rw [if_neg]
    intro hcond
    rw [hnf] at hcond
    exact absurd hcond.2 (by simp)

/-- Claim C2, witness: a 100-unit purchase with referral code "C" raises the
referrer's earnings from 2 to exactly 2 + 0.05 × 100, and with an unknown
code "Z" leaves the accounts untouched while still recording. -/
theorem C2_referral_credit_witness :
    (postPurchase "P" (.found ⟨["W", "P"]⟩) ⟨[], [⟨"R", some "C", 2⟩]⟩
      ⟨some "W", some 100, some 40, some "tx1", some "C"⟩).1.users =
      [⟨"R", some "C", 2 + 0.05 * 100⟩] ∧
    (postPurchase "P" (.found ⟨["W", "P"]⟩) ⟨[], [⟨"R", some "C", 2⟩]⟩
      ⟨some "W", some 100, some 40, some "tx2", some "Z"⟩).1.users =
      [⟨"R", some "C", 2⟩] := by
  constructor
  · have h := C2_referral_credit "P" (.found ⟨["W", "P"]⟩) ⟨[], [⟨"R", some "C", 2⟩]⟩
      ⟨some "W", some 100, some 40, some "tx1", some "C"⟩ "W" "tx1" "C" 100 40
      rfl (by decide) rfl (by norm_num) rfl (by norm_num) rfl (by decide)
      rfl (by decide) rfl rfl
    have h3 := h.2.2.1 [] ⟨"R", some "C", 2⟩ [] rfl (by simp) rfl
    simpa using h3
  · have h := C2_referral_credit "P" (.found ⟨["W", "P"]⟩) ⟨[], [⟨"R", some "C", 2⟩]⟩
      ⟨some "W", some 100, some 40, some "tx2", some "Z"⟩ "W" "tx2" "Z" 100 40
      rfl (by decide) rfl (by norm_num) rfl (by norm_num) rfl (by decide)
      rfl (by decide) rfl rfl
    exact h.2.2.2 (by intro u hu; simp at hu; subst hu; simp)

/-- Claim C5, counterexample. Earnings are not non-negative and not
monotonically non-decreasing: a negative-amount purchase (which passes
the truthiness validation and the amount-blind verifier) credits
0.05 × (−100) = −5, driving the referrer's earnings from 0 down to −5. -/
theorem C5_counterexample :
    (step "P" (step "P" ⟨[], []⟩ (.userLookup "R" "C"))
        (.purchase (.found ⟨["W", "P"]⟩)
          ⟨some "W", some (-100), some 50, some "tx1", some "C"⟩)).users =
      [⟨"R", some "C", -5⟩] ∧ ((-5 : ℚ) < 0) := by
  constructor
  · have h1 : step "P" ⟨[], []⟩ (.userLookup "R" "C") = ⟨[], [⟨"R", some "C", 0⟩]⟩ := rfl
    rw [h1]
    simp [step, postPurchase, strTruthy, numTruthy, validateSignatureOnChain,
      findOnePurchase, insertPurchase, findOneUserByCode, creditFirst]
    norm_num
  · norm_num

/-- Claim C5, amended: account creation initialises earnings to 0 and the
referral-credit step is the only mutation, so provided every accepted
purchase carries a non-negative amount, earnings stay non-negative and are
non-decreasing across every sequence of requests to any endpoint; a
negative-amount purchase, which the code accepts, violates both (see the
counterexample). -/
theorem C5_earnings_monotone (presaleWallet : String) (db : DB) (rs : List Request)
    (h0 : allEarningsNonneg db) (hrs : ∀ r ∈ rs, requestAmountNonneg r) :
    allEarningsNonneg (rs.foldl (step presaleWallet) db) ∧
    usersMono db.users (rs.foldl (step presaleWallet) db).users :=
  foldl_step_mono_nonneg presaleWallet rs db h0 hrs

/-- Claim C5, witness: a non-negative purchase crediting "C" keeps all
earnings non-negative and non-decreasing. -/
theorem C5_earnings_monotone_witness :
    allEarningsNonneg ([Request.purchase (.found ⟨["W", "P"]⟩)
        ⟨some "W", some 100, some 50, some "tx1", some "C"⟩].foldl (step "P")
        ⟨[], [⟨"R", some "C", 0⟩]⟩) ∧
    usersMono [⟨"R", some "C", 0⟩]
      ([Request.purchase (.found ⟨["W", "P"]⟩)
        ⟨some "W", some 100, some 50, some "tx1", some "C"⟩].foldl (step "P")
        ⟨[], [⟨"R", some "C", 0⟩]⟩).users :=
  C5_earnings_monotone "P" ⟨[], [⟨"R", some "C", 0⟩]⟩ _
    (by intro u hu; simp at hu; subst hu; norm_num)
    (by intro r hr; simp at hr; subst hr; norm_num [requestAmountNonneg])

/-- Claim C6, counterexample. The credit is `findOne`, an in-memory `+=`,
and a whole-document `save()` — a read-modify-write, not a storage-layer
increment. Under the interleaving read₁, read₂, save₁, save₂ two concurrent
5-unit bonuses to the same code leave earnings at 5, not the sum 10: a lost
update. -/
theorem C6_counterexample :
    (creditRace ⟨[], [⟨"R", some "C", 0⟩]⟩ "C" 5 5).users = [⟨"R", some "C", 5⟩] ∧
    ((5 : ℚ) ≠ 5 + 5) := by
  constructor
  · simp [creditRace, readEarnings, findOneUserByCode, saveEarningsDB, saveEarnings]
  · norm_num

/-- Claim C6, amended: the credit step is a read-modify-write (the
`creditFirst` update coincides with reading the earnings and saving the
incremented document); run sequentially, credits do accumulate to the sum of
the individual bonuses, but the concurrent interleaving loses updates (see
the counterexample). -/
theorem C6_sequential_accumulation :
    (∀ pre post (u : User) (code : String) (b1 b2 : ℚ),
      (∀ v ∈ pre, v.referralCode ≠ some code) → u.referralCode = some code →
      creditFirst (creditFirst (pre ++ u :: post) code b1) code b2 =
        pre ++ ({ u with referralEarnings := u.referralEarnings + b1 + b2 } :: post)) ∧
    (∀ (users : List User) (code : String) (b e : ℚ),
      (users.find? (fun u => u.referralCode = some code)).map
        (fun u => u.referralEarnings) = some e →
      creditFirst users code b = saveEarnings users code (e + b)) := by
  constructor
  · intro pre post u code b1 b2 hpre hu
    rw [creditFirst_decomp pre post u code b1 hpre hu]
    rw [creditFirst_decomp pre post { u with referralEarnings := u.referralEarnings + b1 }
      code b2 hpre hu]
  · intro users code b e h
    exact creditFirst_eq_read_save users code b e h

/-- Claim C6, witness: two sequential 5-unit credits take earnings from 0 to
0 + 5 + 5, and one credit is exactly read-earnings-then-save-incremented. -/
theorem C6_sequential_accumulation_witness :
    creditFirst (creditFirst [⟨"R", some "C", 0⟩] "C" 5) "C" 5 =
      [⟨"R", some "C", 0 + 5 + 5⟩] ∧
    creditFirst [⟨"R", some "C", 0⟩] "C" 5 =
      saveEarnings [⟨"R", some "C", 0⟩] "C" (0 + 5) := by
  constructor
  · have h1 := C6_sequential_accumulation.1 [] [] ⟨"R", some "C", 0⟩ "C" 5 5
      (by simp) rfl
    simpa using h1
  · exact C6_sequential_accumulation.2 [⟨"R", some "C", 0⟩] "C" 5 0 rfl

/-- Claim C8: the raised amount reported by GET /raised-amount is the sum of
`usdSpent` over the stored Purchases — 0 on an empty ledger, and equal to
the sum of the inserted amounts after any sequence of insertions. -/
theorem C8_raised_amount_sum :
    (∀ users : List User, raisedAmount ⟨[], users⟩ = 0) ∧
    (∀ (users : List User) (ps : List Purchase),
      raisedAmount (ps.foldl insertPurchase ⟨[], users⟩) =
        (ps.map (fun p => p.usdSpent)).sum) := by
  constructor
  · intro users; rfl
  · intro users ps
    unfold raisedAmount
    rw [foldl_insertPurchase_purchases]
    rfl

/-- Claim C9, counterexample. The only try/catch wraps the entire loop, so a
record that throws (a matching destination with `tx.signers` absent) aborts
the whole batch with 500 and the later valid record is never stored, even
though that record alone would have produced a Purchase — refuting
partial-batch success. -/
theorem C9_counterexample :
    webhookHandler "P" ⟨[], []⟩
      [⟨"txB", [⟨some ⟨"P", 100⟩⟩], none⟩,
       ⟨"txG", [⟨some ⟨"P", 2000000⟩⟩], some ["W"]⟩] =
      ((⟨[], []⟩ : DB), ⟨500, "Internal Server Error"⟩) ∧
    (webhookHandler "P" ⟨[], []⟩
      [⟨"txG", [⟨some ⟨"P", 2000000⟩⟩], some ["W"]⟩]).1.purchases ≠ [] := by
  constructor
  · rfl
  · simp [webhookHandler, processTxs, processInstructions, findOnePurchase, insertPurchase]

/-- Claim C9, amended: records whose parsed destination does not match the
presale wallet are filtered with no Purchase and no error (the batch answers
200 and the state is unchanged); but there is no per-record error handling —
a record that throws aborts all remaining records and fails the batch with
500. -/
theorem C9_batch_behavior (presaleWallet : String) :
    (∀ (db : DB) (txs : List WebhookTx),
      (∀ tx ∈ txs, noMatchingDest presaleWallet tx) →
      webhookHandler presaleWallet db txs = (db, ⟨200, "Webhook processed"⟩)) ∧
    (∀ (db : DB) (sig : String) (amt : ℚ) (rest : List WebhookTx),
      webhookHandler presaleWallet db
        (⟨sig, [⟨some ⟨presaleWallet, amt⟩⟩], none⟩ :: rest) =
        (db, ⟨500, "Internal Server Error"⟩)) := by
  constructor
  · intro db txs h
    unfold webhookHandler
    rw [processTxs_filtered presaleWallet db txs h]
  · intro db sig amt rest
    unfold webhookHandler
    rw [processTxs_abort]

/-- Claim C9, witness: a batch whose records pay another destination is
acknowledged 200 with nothing stored; a throwing record fails the batch. -/
theorem C9_batch_behavior_witness :
    webhookHandler "P" ⟨[], []⟩ [⟨"t1", [⟨some ⟨"X", 5⟩⟩, ⟨none⟩], some ["W"]⟩] =
      ((⟨[], []⟩ : DB), ⟨200, "Webhook processed"⟩) ∧
    webhookHandler "P" ⟨[], []⟩ [⟨"t2", [⟨some ⟨"P", 5⟩⟩], none⟩] =
      ((⟨[], []⟩ : DB), ⟨500, "Internal Server Error"⟩) := by
  constructor
  · refine (C9_batch_behavior "P").1 ⟨[], []⟩ _ ?_
    intro tx htx
    simp at htx
    subst htx
    intro inst hinst info hpi
    rcases List.mem_cons.mp hinst with h1 | h2
    · subst h1
      simp only [Option.some_inj] at hpi
      subst hpi
      decide
    · simp only [List.mem_singleton] at h2
      subst h2
      simp at hpi
  · exact (C9_batch_behavior "P").2 ⟨[], []⟩ "t2" 5 []

/-- Claim C10: the webhook path never touches any account — users are
unchanged by any batch — and every Purchase it adds carries no
referralCodeUsed and a token quantity equal to the stored amount divided by
0.00851 (the stored amount itself being the parsed amount / 1e6). -/
theorem C10_webhook_frame (presaleWallet : String) (db : DB) (txs : List WebhookTx) :
    (webhookHandler presaleWallet db txs).1.users = db.users ∧
    ∀ p ∈ (webhookHandler presaleWallet db txs).1.purchases,
      p ∈ db.purchases ∨
      (p.referralCodeUsed = none ∧ p.tokensReceived = p.usdSpent / 0.00851) :=
  ⟨webhookHandler_users presaleWallet db txs,
   fun p hp => webhookHandler_purchases presaleWallet db txs p hp⟩

/-- Claim C10, witness: a stored webhook Purchase has no referral code and
the fixed-rate token quantity, and the user collection is untouched. -/
theorem C10_webhook_frame_witness :
    (webhookHandler "P" ⟨[], [⟨"R", some "C", 3⟩]⟩
      [⟨"txG", [⟨some ⟨"P", 2000000⟩⟩], some ["W"]⟩]).1.users =
      [⟨"R", some "C", 3⟩] ∧
    ((⟨some "W", 2, 2 / 0.00851, "txG", none⟩ : Purchase) ∈
        (⟨[], [⟨"R", some "C", 3⟩]⟩ : DB).purchases ∨
      ((⟨some "W", 2, 2 / 0.00851, "txG", none⟩ : Purchase).referralCodeUsed = none ∧
       (⟨some "W", 2, 2 / 0.00851, "txG", none⟩ : Purchase).tokensReceived =
         (⟨some "W", 2, 2 / 0.00851, "txG", none⟩ : Purchase).usdSpent / 0.00851)) := by
  have h := C10_webhook_frame "P" ⟨[], [⟨"R", some "C", 3⟩]⟩
    [⟨"txG", [⟨some ⟨"P", 2000000⟩⟩], some ["W"]⟩]
  refine ⟨h.1, h.2 _ ?_⟩
  simp [webhookHandler, processTxs, processInstructions, findOnePurchase, insertPurchase]
  norm_num

end Presale
